import Mathlib

/-!
Verification development for the client-side build-session core of the
Orchids AI website builder (frontend/app/page.tsx).

The embedding models the React component AIWebsiteBuilder as a pure state
machine.  The component state hooks become fields of AppState; each event
handler of the source becomes a pure function from the old state (plus the
inbound event and a clock supplying the values returned by Date.now) to the
new state.

One point of the source demands care: the WebSocket callbacks installed by
handleClone (ws.onmessage, ws.onclose) are closures created once, when
handleClone runs.  Inside them, the identifiers aiResponse and selectedFile
refer to the values those React state variables had in the render that
created the closure, not to the current values; only the functional
setState forms (setMessages (prev => ...), setFiles (prev => ...),
setAiResponse (prev => ...)) act on current state.  The embedding makes
this explicit with a Snap record holding the captured aiResponse and
selectedFile values; handleClone captures the snapshot and every later
invocation of the handlers reads stale values from it, exactly as the
JavaScript closures do.
-/

/-- One entry of the conversational timeline: the Message objects fed to
useChat via setMessages.  The id is produced by Date.now().toString(). -/
structure Msg where
  id : String
  role : String
  content : String
deriving DecidableEq

/-- A record of the virtual file store, mirroring the FileNode type of the
source: path, content, and the optional oldContent field. -/
structure FileNode where
  path : String
  content : String
  oldContent : Option String
deriving DecidableEq

/-- Ready states of a WebSocket (CONNECTING, OPEN, CLOSING, CLOSED). -/
inductive ReadyState where
  | connecting
  | opened
  | closing
  | closed
deriving DecidableEq

/-- The connection handle stored in websocketRef.  startUrl is the url
argument that handleClone received; the onopen callback sends it as the
Start frame. -/
structure WsRef where
  startUrl : String
  readyState : ReadyState
deriving DecidableEq

/-- The component state of AIWebsiteBuilder: one field per useState hook
touched by the session core, plus the websocketRef handle.  The input text
field managed by useChat is passed to the handlers separately. -/
structure AppState where
  isBuilding : Bool
  files : List (String × FileNode)
  selectedFile : String
  isLive : Bool
  aiResponse : String
  messages : List Msg
  ws : Option WsRef
deriving DecidableEq

/-- The state of the component when it mounts: every hook at its initial
value and no connection. -/
def initState : AppState :=
  { isBuilding := false
    files := []
    selectedFile := ""
    isLive := false
    aiResponse := ""
    messages := []
    ws := none }

/-- The session states named by the specification, derived from the two
boolean flags of the source: the isBuilding flag selects the build screen
and the isLive flag marks the preview as trustworthy. -/
inductive SessState where
  | idle
  | building
  | live
deriving DecidableEq

/-- Derived session state: Idle when not building, Live once the ready
status arrived, Building in between. -/
def sessionState (s : AppState) : SessState :=
  if s.isBuilding then (if s.isLive then SessState.live else SessState.building)
  else SessState.idle

/-- Outbound frames the client sends over the connection. -/
inductive OutFrame where
  | start (url : String)
  | modification (prompt : String)
deriving DecidableEq

/-- The clock abstracts Date.now: the i-th call of Date.now during the
modelled run returns f i.  Nothing forces f to be injective; two calls in
the same millisecond return the same value. -/
structure Clock where
  f : Nat → Nat
  i : Nat

/-- One call of Date.now: read the current value and advance the call
counter. -/
def tick (c : Clock) : Nat × Clock :=
  (c.f c.i, { c with i := c.i + 1 })

/-- setMessages (prev => [...prev, { id: Date.now().toString(), role, content }]).
Consumes one clock value for the Date.now call. -/
def appendMsg (role content : String) (c : Clock) (s : AppState) : AppState × Clock :=
  let (t, c1) := tick c
  ({ s with messages := s.messages ++ [⟨Nat.repr t, role, content⟩] }, c1)

/-- JavaScript Map.set: replace the value in place when the key exists
(keeping its original insertion position), otherwise append a new entry. -/
def mapSet (l : List (String × FileNode)) (k : String) (v : FileNode) :
    List (String × FileNode) :=
  match l with
  | [] => [(k, v)]
  | (k1, v1) :: rest =>
      if k1 = k then (k, v) :: rest else (k1, v1) :: mapSet rest k v

/-- JavaScript Map.get: the value stored at the key, if any. -/
def mapGet (l : List (String × FileNode)) (k : String) : Option FileNode :=
  match l with
  | [] => none
  | (k1, v1) :: rest => if k1 = k then some v1 else mapGet rest k

/-- The values of aiResponse and selectedFile captured by the WebSocket
callback closures when handleClone created them. -/
structure Snap where
  aiResponse : String
  selectedFile : String
deriving DecidableEq

/-- Inbound frames after JSON parsing and classification.  unknownEvent
stands for a well-formed frame whose event field is none of the five
recognized kinds; malformed stands for a frame on which JSON.parse throws.
In the source the parse happens before any state is touched, so a throw
leaves every piece of state unchanged. -/
inductive InEvent where
  | log (message : String)
  | aiToken (token : String)
  | fileCreate (path content : String)
  | fileUpdate (path content : String) (oldContent : Option String)
  | status (status : String)
  | unknownEvent
  | malformed
deriving DecidableEq

/-- The ws.onmessage handler.  snap holds the closure-captured aiResponse
and selectedFile; the JavaScript conditions if (aiResponse) and
if (!selectedFile) test those captured values, while the functional
setState calls below them act on the current state s. -/
def onmessage (snap : Snap) (ev : InEvent) (c : Clock) (s : AppState) :
    AppState × Clock :=
  match ev with
  | InEvent.log message =>
      let (s1, c1) :=
        if snap.aiResponse ≠ "" then
          let (s2, c2) := appendMsg "assistant" snap.aiResponse c s
          ({ s2 with aiResponse := "" }, c2)
        else (s, c)
      appendMsg "assistant" message c1 s1
  | InEvent.aiToken token =>
      ({ s with aiResponse := s.aiResponse ++ token }, c)
  | InEvent.fileCreate path content =>
      let rec0 : FileNode :=
        ⟨path, content, (mapGet s.files path).map (fun r => r.content)⟩
      let s1 := { s with files := mapSet s.files path rec0 }
      let s2 := if snap.selectedFile = "" then { s1 with selectedFile := path } else s1
      (s2, c)
  | InEvent.fileUpdate path content oldContent =>
      let s1 := { s with files := mapSet s.files path ⟨path, content, oldContent⟩ }
      let s2 := if snap.selectedFile = "" then { s1 with selectedFile := path } else s1
      (s2, c)
  | InEvent.status st =>
      if st = "ready" then
        let s1 := { s with isLive := true }
        if snap.aiResponse ≠ "" then
          let (s2, c2) := appendMsg "assistant" snap.aiResponse c s1
          ({ s2 with aiResponse := "" }, c2)
        else (s1, c)
      else (s, c)
  | InEvent.unknownEvent => (s, c)
  | InEvent.malformed => (s, c)

/-- The ws.onclose handler: flush the closure-captured aiResponse if it is
nonempty. -/
def onclose (snap : Snap) (c : Clock) (s : AppState) : AppState × Clock :=
  if snap.aiResponse ≠ "" then
    let (s2, c2) := appendMsg "assistant" snap.aiResponse c s
    ({ s2 with aiResponse := "" }, c2)
  else (s, c)

/-- Deliver a list of inbound frames to the onmessage handler in order.
The snapshot is fixed for the whole session because the handler closure is
installed once. -/
def runSession (snap : Snap) : List InEvent → Clock → AppState → AppState × Clock
  | [], c, s => (s, c)
  | e :: es, c, s =>
      let (s1, c1) := onmessage snap e c s
      runSession snap es c1 s1

/-- handleClone: set isBuilding, open a connection whose onopen will send
the Start frame with the given url, and capture the closure snapshot for
the message and close handlers. -/
def handleClone (url : String) (s : AppState) : AppState × Snap :=
  ({ s with isBuilding := true, ws := some ⟨url, ReadyState.connecting⟩ },
   ⟨s.aiResponse, s.selectedFile⟩)

/-- The ws.onopen handler: the connection becomes OPEN and the Start frame
carrying the handleClone url is sent. -/
def wsOnOpen (w : WsRef) : WsRef × OutFrame :=
  ({ w with readyState := ReadyState.opened }, OutFrame.start w.startUrl)

/-- Whitespace in the sense of the JavaScript \s class and String.trim,
restricted to the ASCII range (the unicode space characters play no role
in the claims). -/
def isJsSpace (ch : Char) : Bool :=
  ch = ' ' || ch = '\t' || ch = '\n' || ch = '\r' || ch = '\x0b' || ch = '\x0c'

/-- JavaScript String.trim: drop whitespace from both ends. -/
def jsTrim (s : String) : String :=
  String.mk (((s.data.dropWhile isJsSpace).reverse.dropWhile isJsSpace).reverse)

/-- The greedy [^\s]+ tail of the url regex: the longest nonempty run of
non-whitespace characters. -/
def urlTail (body : List Char) : List Char :=
  body.takeWhile (fun ch => !isJsSpace ch)

/-- Match attempt for the regex alternative without the optional s, at a
position where the literal http has already been consumed. -/
def matchNoS (rest : List Char) : Option (List Char) :=
  match rest with
  | ':' :: '/' :: '/' :: body =>
      if urlTail body = [] then none
      else some (['h', 't', 't', 'p', ':', '/', '/'] ++ urlTail body)
  | _ => none

/-- Match attempt of the regex (https?:\/\/[^\s]+) at one position: the
engine first tries the branch with the optional s, then backtracks to the
branch without it. -/
def matchAt (cs : List Char) : Option (List Char) :=
  match cs with
  | 'h' :: 't' :: 't' :: 'p' :: rest =>
      match rest with
      | 's' :: ':' :: '/' :: '/' :: body =>
          if urlTail body = [] then matchNoS rest
          else some (['h', 't', 't', 'p', 's', ':', '/', '/'] ++ urlTail body)
      | _ => matchNoS rest
  | _ => none

/-- Leftmost match: try each start position from the left, as
String.prototype.match does for a non-global regex. -/
def findUrlAux : List Char → Option (List Char)
  | [] => none
  | ch :: cs =>
      match matchAt (ch :: cs) with
      | some m => some m
      | none => findUrlAux cs

/-- input.match(urlRegex) reduced to its first capture: the first http(s)
url occurring in the text, if any. -/
def findUrl (s : String) : Option String :=
  (findUrlAux s.data).map String.mk

/-- The fixed fallback url of the source. -/
def defaultCloneUrl : String :=
  "https://vercel.com/templates/next.js/nextjs-boilerplate"

/-- The assistant notice appended when no url is found in the submission. -/
def noUrlNotice : String :=
  "No URL detected. Cloning a default Next.js boilerplate from Vercel as an example."

/-- Result of handleInitialSubmit: the new component state, the closure
snapshot captured by handleClone, the url handleClone was called with, the
input field after the handler (cleared), and the advanced clock. -/
structure SubmitOut where
  state : AppState
  snap : Snap
  url : String
  input : String
  clock : Clock

/-- handleInitialSubmit: append the user turn when the trimmed input is
nonempty, pick the first http(s) url of the input or fall back to the
default boilerplate url (appending the notice turn in the fallback case),
start the clone, and clear the input. -/
def handleInitialSubmit (input : String) (c : Clock) (s : AppState) : SubmitOut :=
  let (s1, c1) := if jsTrim input ≠ "" then appendMsg "user" input c s else (s, c)
  match findUrl input with
  | some u =>
      let (s2, snap) := handleClone u s1
      ⟨s2, snap, u, "", c1⟩
  | none =>
      let (s2, snap) := handleClone defaultCloneUrl s1
      let (s3, c3) := appendMsg "assistant" noUrlNotice c1 s2
      ⟨s3, snap, defaultCloneUrl, "", c3⟩

/-- The guard of handleModificationSubmit is passed exactly when the ref
holds a connection whose readyState is OPEN. -/
def wsReady (w : Option WsRef) : Bool :=
  match w with
  | some wr =>
      match wr.readyState with
      | ReadyState.opened => true
      | _ => false
  | none => false

/-- Result of handleModificationSubmit: new state, frames sent, the input
field after the handler, and the clock. -/
structure ModOut where
  state : AppState
  sent : List OutFrame
  input : String
  clock : Clock

/-- handleModificationSubmit: return silently unless the trimmed input is
nonempty and an OPEN connection exists; otherwise append the user turn,
send the modification frame with the untrimmed prompt, and clear the
input. -/
def handleModificationSubmit (input : String) (c : Clock) (s : AppState) : ModOut :=
  if jsTrim input = "" || !wsReady s.ws then ⟨s, [], input, c⟩
  else
    let (s1, c1) := appendMsg "user" input c s
    ⟨s1, [OutFrame.modification input], "", c1⟩

/-- handleReset: close any connection held by the ref, drop the ref, and
put every hook back to its initial value.  The boolean reports whether a
close call was issued. -/
def handleReset (s : AppState) : AppState × Bool :=
  (initState, s.ws.isSome)

/-- A whole pipeline from the landing page: submit the initial target from
the mount state, then deliver the inbound frames to the session handlers. -/
def submitAndRun (input : String) (evs : List InEvent) (c : Clock) :
    AppState × Clock :=
  let r := handleInitialSubmit input c initState
  runSession r.snap evs r.clock r.state

/-- Same pipeline followed by the connection closing. -/
def submitRunClose (input : String) (evs : List InEvent) (c : Clock) :
    AppState × Clock :=
  let r := handleInitialSubmit input c initState
  let (s1, c1) := runSession r.snap evs r.clock r.state
  onclose r.snap c1 s1

/-- Nodes of the projected file tree (CodeEditorPanel).  Only folders carry
children; the children list is ordered by discovery. -/
inductive TreeNode where
  | file (name : String)
  | folder (name : String) (children : List TreeNode)

/-- Name of a tree node. -/
def nodeName : TreeNode → String
  | TreeNode.file n => n
  | TreeNode.folder n _ => n

/-- currentLevel.find (i => i.name === part) succeeds, as a boolean. -/
def hasName (lvl : List TreeNode) (seg : String) : Bool :=
  lvl.any (fun n => nodeName n == seg)

/-- path.split with the slash separator, on the character list.  Matches
the JavaScript split: an empty string yields one empty segment, adjacent
separators yield empty segments. -/
def splitSlash : List Char → List (List Char)
  | [] => [[]]
  | ch :: rest =>
      match splitSlash rest with
      | [] => [[]]
      | seg :: segs => if ch = '/' then [] :: seg :: segs else (ch :: seg) :: segs

/-- path.split into string segments. -/
def splitPath (p : String) : List String :=
  (splitSlash p.data).map String.mk

/-- Insert the segments of one path into one level of the tree, mirroring
the forEach body of the fileTree reduce.  A non-final segment reuses the
first node of the level with the same name; when that node is a file its
children field is undefined in the source and the walk crashes on the next
segment, which the embedding reports as none.  When no node matches, a new
node is pushed at the end of the level. -/
def insertSegs : List String → List TreeNode → Option (List TreeNode)
  | [], lvl => some lvl
  | [seg], lvl =>
      if hasName lvl seg then some lvl else some (lvl ++ [TreeNode.file seg])
  | seg :: seg2 :: rest, lvl =>
      match lvl.dropWhile (fun n => !(nodeName n == seg)) with
      | [] =>
          (insertSegs (seg2 :: rest) []).map
            (fun sub => lvl ++ [TreeNode.folder seg sub])
      | TreeNode.file _ :: _ => none
      | TreeNode.folder nm cs :: post =>
          (insertSegs (seg2 :: rest) cs).map
            (fun cs2 => lvl.takeWhile (fun n => !(nodeName n == seg))
              ++ TreeNode.folder nm cs2 :: post)

/-- The reduce over the path keys building the tree from an accumulator. -/
def buildTree : List String → List TreeNode → Option (List TreeNode)
  | [], acc => some acc
  | p :: ps, acc =>
      match insertSegs (splitPath p) acc with
      | some acc2 => buildTree ps acc2
      | none => none

/-- The fileTree projector of CodeEditorPanel: fold the store keys, in
first-insertion order, into a tree starting from the empty level. -/
def fileTree (paths : List String) : Option (List TreeNode) :=
  buildTree paths []

mutual

/-- Name distinctness below one node: files are always fine, folders must
have a good children list. -/
def goodNode : TreeNode → Bool
  | TreeNode.file _ => true
  | TreeNode.folder _ cs => goodLevel cs

/-- Name distinctness at every level of the tree: no two sibling nodes
share a name, recursively. -/
def goodLevel : List TreeNode → Bool
  | [] => true
  | n :: ns => goodNode n && !(hasName ns (nodeName n)) && goodLevel ns

end

/-- Number of Date.now calls the onmessage handler performs for one event,
given the closure snapshot.  Every call feeds exactly one appended turn. -/
def tickCount (snap : Snap) : InEvent → Nat
  | InEvent.log _ => if snap.aiResponse ≠ "" then 2 else 1
  | InEvent.status st => if st = "ready" ∧ snap.aiResponse ≠ "" then 1 else 0
  | _ => 0

/-- Total number of Date.now calls over a list of inbound events. -/
def tickTotal (snap : Snap) : List InEvent → Nat
  | [] => 0
  | e :: es => tickCount snap e + tickTotal snap es

/-- The ids produced by n successive Date.now calls starting at call index
i of the clock function f. -/
def clockIds (f : Nat → Nat) (i : Nat) : Nat → List String
  | 0 => []
  | n + 1 => Nat.repr (f i) :: clockIds f (i + 1) n

/-- A reachable state with an OPEN connection, as produced by a submit
followed by the onopen callback, used to instantiate guard theorems. -/
def wsOpenState : AppState :=
  { initState with
    isBuilding := true
    ws := some ⟨"https://example.com", ReadyState.opened⟩ }

/-- The value stored under a key just set is the record just written. -/
theorem mapGet_mapSet (l : List (String × FileNode)) (k : String) (v : FileNode) :
    mapGet (mapSet l k v) k = some v := by
  induction l with
  | nil => simp [mapSet, mapGet]
  | cons h t ih =>
      obtain ⟨k1, v1⟩ := h
      by_cases hk : k1 = k
      · simp [mapSet, mapGet, hk]
      · simp [mapSet, mapGet, hk, ih]

/-- Claim C1: the specification says a log event first flushes a non-empty
PendingStreamText into the Timeline and then appends the log message, so
Scenario B should end with assistant turns Hello then Done.  The code does
not do this: the onmessage closure captured aiResponse from the render in
which handleClone ran, where it was empty, so the flush guard never fires.
Evaluating the code on Scenario B: the timeline ends with the single
assistant turn Done and the text Hello is still sitting in the buffer. -/
theorem c1_log_does_not_flush :
    (submitAndRun "https://example.com"
        [InEvent.aiToken "Hel", InEvent.aiToken "lo", InEvent.log "Done"]
        ⟨(fun j => j), 0⟩).1.messages.map (fun m => (m.role, m.content))
      = [("user", "https://example.com"), ("assistant", "Done")]
    ∧ (submitAndRun "https://example.com"
        [InEvent.aiToken "Hel", InEvent.aiToken "lo", InEvent.log "Done"]
        ⟨(fun j => j), 0⟩).1.aiResponse = "Hello" :=
  ⟨by decide, by decide⟩

/-- Claim C2, counterexample: after file_create on p with content C and a
file_update on p carrying no old_content, the record has priorContent
unset, not C as the claim states: the source sets oldContent to
data.old_content whenever the event is a file_update, even when that field
is absent. -/
theorem c2_file_update_prior_counterexample :
    mapGet (submitAndRun "https://example.com"
        [InEvent.fileCreate "p" "C", InEvent.fileUpdate "p" "D" none]
        ⟨(fun j => j), 0⟩).1.files "p"
      = some ⟨"p", "D", none⟩
    ∧ ((none : Option String) ≠ some "C") :=
  ⟨by decide, by decide⟩

/-- Claim C2, amended: a file_update stores exactly the explicit
old_content field as priorContent; when the event carries old_content the
record priorContent equals it, and when the field is absent priorContent
is unset, regardless of what the record held before the update. -/
theorem c2_file_update_prior_amended (snap : Snap) (c : Clock) (s : AppState)
    (p cnt : String) (old : Option String) :
    mapGet ((onmessage snap (InEvent.fileUpdate p cnt old) c s).1.files) p
      = some ⟨p, cnt, old⟩ := by
  have h : (onmessage snap (InEvent.fileUpdate p cnt old) c s).1.files
      = mapSet s.files p ⟨p, cnt, old⟩ := by
    simp only [onmessage]
    split <;> rfl
  rw [h, mapGet_mapSet]

/-- Claim C3: the specification says the first file event of a session
fixes the focused path and later file events never change it.  In the
code the guard if (not selectedFile) tests the selectedFile value captured
when handleClone ran, which is the empty string, so every file event
overwrites the focus: after file events on x.txt then y.txt the focused
path is y.txt, not x.txt. -/
theorem c3_focus_follows_every_file_event :
    (submitAndRun "https://example.com"
        [InEvent.fileCreate "x.txt" "1", InEvent.fileCreate "y.txt" "2"]
        ⟨(fun j => j), 0⟩).1.selectedFile = "y.txt"
    ∧ "y.txt" ≠ "x.txt" :=
  ⟨by decide, by decide⟩

/-- Claim C4: the specification says a transport close flushes a non-empty
PendingStreamText into the Timeline.  The onclose closure also reads the
stale captured aiResponse, which is empty, so nothing is flushed: after
streaming the token Hi and closing, the timeline still holds only the user
turn and the buffer still holds Hi. -/
theorem c4_close_does_not_flush :
    (submitRunClose "https://example.com" [InEvent.aiToken "Hi"]
        ⟨(fun j => j), 0⟩).1.aiResponse = "Hi"
    ∧ (submitRunClose "https://example.com" [InEvent.aiToken "Hi"]
        ⟨(fun j => j), 0⟩).1.messages.map (fun m => (m.role, m.content))
      = [("user", "https://example.com")] :=
  ⟨by decide, by decide⟩

/-- Claim C5: a frame on which JSON.parse throws, or whose event kind is
none of the recognized ones, changes nothing: timeline, file store,
pending text, focus, liveness and connection are all untouched and the
clock does not advance, so the session simply continues. -/
theorem c5_decode_error_noop (snap : Snap) (c : Clock) (s : AppState) :
    onmessage snap InEvent.malformed c s = (s, c)
    ∧ onmessage snap InEvent.unknownEvent c s = (s, c) :=
  ⟨rfl, rfl⟩

/-- Claim C6, counterexample: with an OPEN connection but a blank prompt,
handleModificationSubmit sends nothing, so sending is not equivalent to
the connection being open as the claim states. -/
theorem c6_modification_guard_counterexample :
    (handleModificationSubmit "   " ⟨(fun j => j), 0⟩ wsOpenState).sent = []
    ∧ wsReady wsOpenState.ws = true :=
  ⟨by decide, by decide⟩

/-- Claim C6, amended: the modification frame is sent exactly when the
trimmed prompt is nonempty and an OPEN connection exists; the session
state (Building or Live) is not consulted.  When the connection guard
fails, or the prompt is blank, the submission is a complete no-op: no
frame, no state change, input untouched, no error surfaced. -/
theorem c6_modification_guard_amended (input : String) (c : Clock) (s : AppState) :
    ((handleModificationSubmit input c s).sent = [OutFrame.modification input]
      ↔ (jsTrim input ≠ "" ∧ wsReady s.ws = true))
    ∧ (wsReady s.ws = false →
        handleModificationSubmit input c s = ⟨s, [], input, c⟩)
    ∧ (jsTrim input = "" →
        handleModificationSubmit input c s = ⟨s, [], input, c⟩) := by
  unfold handleModificationSubmit
  by_cases h1 : jsTrim input = "" <;> by_cases h2 : wsReady s.ws <;>
    simp [h1, h2]

/-- Claim C6, witness: a nonempty prompt with an OPEN connection while the
state is still Building is sent, and with no connection at all the
submission leaves everything unchanged. -/
theorem c6_modification_guard_witness :
    (handleModificationSubmit "add a navbar" ⟨(fun j => j), 0⟩ wsOpenState).sent
      = [OutFrame.modification "add a navbar"]
    ∧ handleModificationSubmit "hi" ⟨(fun j => j), 0⟩ initState
      = ⟨initState, [], "hi", ⟨(fun j => j), 0⟩⟩ := by
  refine ⟨?_, ?_⟩
  · exact (c6_modification_guard_amended "add a navbar" ⟨(fun j => j), 0⟩
      wsOpenState).1.mpr ⟨by decide, by decide⟩
  · exact (c6_modification_guard_amended "hi" ⟨(fun j => j), 0⟩
      initState).2.1 (by decide)

/-- Claim C7: handleReset returns the mount state from every state: empty
timeline, empty file store, empty pending buffer, no focused path, session
state Idle, no connection left in the ref, and the close call is issued
exactly when a connection was held.  The handler is one synchronous
function, so no partial reset state is observable. -/
theorem c7_reset_complete (s : AppState) :
    (handleReset s).1 = initState
    ∧ (handleReset s).1.messages = []
    ∧ (handleReset s).1.files = []
    ∧ (handleReset s).1.aiResponse = ""
    ∧ (handleReset s).1.selectedFile = ""
    ∧ (handleReset s).1.ws = none
    ∧ sessionState (handleReset s).1 = SessState.idle
    ∧ (handleReset s).2 = s.ws.isSome :=
  ⟨rfl, rfl, rfl, rfl, rfl, rfl, rfl, rfl⟩

/-- Claim C10: when the submitted text contains no http(s) url the clone
is started against the fixed boilerplate url and the assistant notice is
the last appended turn; when the text contains an http(s) url the first
match is the url handleClone receives, and the onopen callback sends it as
the Start frame. -/
theorem c10_initial_submit (input : String) (c : Clock) :
    (findUrl input = none →
      (handleInitialSubmit input c initState).url = defaultCloneUrl
      ∧ (handleInitialSubmit input c initState).state.isBuilding = true
      ∧ (handleInitialSubmit input c initState).state.ws
          = some ⟨defaultCloneUrl, ReadyState.connecting⟩
      ∧ ((handleInitialSubmit input c initState).state.messages.map
            (fun m => (m.role, m.content))).getLast?
          = some ("assistant", noUrlNotice))
    ∧ (∀ u, findUrl input = some u →
        (handleInitialSubmit input c initState).url = u
        ∧ (handleInitialSubmit input c initState).state.ws
            = some ⟨u, ReadyState.connecting⟩
        ∧ (wsOnOpen ⟨u, ReadyState.connecting⟩).2 = OutFrame.start u) := by
  constructor
  · intro h
    unfold handleInitialSubmit
    split <;> simp_all [handleClone, appendMsg, wsOnOpen, List.getLast?_concat]
  · intro u h
    unfold handleInitialSubmit
    split <;> simp_all [handleClone, appendMsg, wsOnOpen]

/-- Claim C10, witness: a plain brief starts the default boilerplate clone
and ends the timeline with the notice turn; a text containing a url starts
the clone against that url. -/
theorem c10_initial_submit_witness :
    ((handleInitialSubmit "make a portfolio site" ⟨(fun j => j), 0⟩
        initState).url = defaultCloneUrl
      ∧ (handleInitialSubmit "make a portfolio site" ⟨(fun j => j), 0⟩
          initState).state.isBuilding = true
      ∧ (handleInitialSubmit "make a portfolio site" ⟨(fun j => j), 0⟩
          initState).state.ws
          = some ⟨defaultCloneUrl, ReadyState.connecting⟩
      ∧ ((handleInitialSubmit "make a portfolio site" ⟨(fun j => j), 0⟩
            initState).state.messages.map
            (fun m => (m.role, m.content))).getLast?
          = some ("assistant", noUrlNotice))
    ∧ (handleInitialSubmit "go https://a.io now" ⟨(fun j => j), 0⟩
        initState).url = "https://a.io" := by
  refine ⟨?_, ?_⟩
  · exact (c10_initial_submit "make a portfolio site" ⟨(fun j => j), 0⟩).1
      (by decide)
  · exact ((c10_initial_submit "go https://a.io now" ⟨(fun j => j), 0⟩).2
      "https://a.io" (by decide)).1

/-- Splitting a run of Date.now ids at any point. -/
theorem clockIds_append (f : Nat → Nat) (a : Nat) :
    ∀ i b, clockIds f i (a + b) = clockIds f i a ++ clockIds f (i + a) b := by
  induction a with
  | zero => intro i b; simp [clockIds]
  | succ n ih =>
      intro i b
      have h1 : n + 1 + b = (n + b) + 1 := by omega
      rw [h1]
      show Nat.repr (f i) :: clockIds f (i + 1) (n + b) = _
      rw [ih (i + 1) b]
      have h2 : i + 1 + n = i + (n + 1) := by omega
      rw [h2]
      simp [clockIds]

/-- One inbound event appends exactly the turns whose ids come from the
Date.now calls the handler makes, in call order, and advances the clock by
that number of calls. -/
theorem onmessage_ids (snap : Snap) (e : InEvent) (f : Nat → Nat) (i : Nat)
    (s : AppState) :
    (onmessage snap e ⟨f, i⟩ s).1.messages.map Msg.id
      = s.messages.map Msg.id ++ clockIds f i (tickCount snap e)
    ∧ (onmessage snap e ⟨f, i⟩ s).2 = ⟨f, i + tickCount snap e⟩ := by
  cases e with
  | log m =>
      by_cases h : snap.aiResponse = "" <;>
        simp [onmessage, tickCount, h, appendMsg, tick, clockIds]
  | aiToken t => simp [onmessage, tickCount, clockIds]
  | fileCreate p cnt =>
      refine ⟨?_, by simp [onmessage, tickCount]⟩
      simp only [onmessage, tickCount]
      split <;> simp [clockIds]
  | fileUpdate p cnt old =>
      refine ⟨?_, by simp [onmessage, tickCount]⟩
      simp only [onmessage, tickCount]
      split <;> simp [clockIds]
  | status st =>
      by_cases h1 : st = "ready" <;> by_cases h2 : snap.aiResponse = "" <;>
        simp [onmessage, tickCount, h1, h2, appendMsg, tick, clockIds]
  | unknownEvent => simp [onmessage, tickCount, clockIds]
  | malformed => simp [onmessage, tickCount, clockIds]

/-- Over a whole session the timeline only grows at the end, and the ids
of the appended turns are exactly the decimal strings of the Date.now
values observed, one per append, in call order. -/
theorem runSession_ids (snap : Snap) (evs : List InEvent) :
    ∀ (f : Nat → Nat) (i : Nat) (s : AppState),
    (runSession snap evs ⟨f, i⟩ s).1.messages.map Msg.id
      = s.messages.map Msg.id ++ clockIds f i (tickTotal snap evs)
    ∧ (runSession snap evs ⟨f, i⟩ s).2 = ⟨f, i + tickTotal snap evs⟩ := by
  induction evs with
  | nil => intro f i s; simp [runSession, tickTotal, clockIds]
  | cons e es ih =>
      intro f i s
      have he := onmessage_ids snap e f i s
      have hshow :
          runSession snap (e :: es) ⟨f, i⟩ s
            = runSession snap es (onmessage snap e ⟨f, i⟩ s).2
                (onmessage snap e ⟨f, i⟩ s).1 := rfl
      rw [hshow, he.2]
      have hi := ih f (i + tickCount snap e) (onmessage snap e ⟨f, i⟩ s).1
      constructor
      · rw [hi.1, he.1, List.append_assoc]
        have : tickTotal snap (e :: es)
            = tickCount snap e + tickTotal snap es := rfl
        rw [this, clockIds_append f (tickCount snap e) i (tickTotal snap es)]
      · rw [hi.2]
        have : i + tickCount snap e + tickTotal snap es
            = i + tickTotal snap (e :: es) := by
          show i + tickCount snap e + tickTotal snap es
            = i + (tickCount snap e + tickTotal snap es)
          omega
        rw [this]

/-- Claim C9, amended: the Timeline is append-only (its id sequence after a
session run extends the starting one, so insertion order is the only
ordering), and every turn id is the decimal string of the Date.now value
its append observed; the ids of a session started from an empty timeline
are therefore unique exactly when those observed strings are pairwise
distinct.  Unconditional uniqueness fails because Date.now can return the
same millisecond twice. -/
theorem c9_turn_ids_amended (snap : Snap) (evs : List InEvent) (f : Nat → Nat)
    (i : Nat) (s : AppState) :
    ((runSession snap evs ⟨f, i⟩ s).1.messages.map Msg.id
      = s.messages.map Msg.id ++ clockIds f i (tickTotal snap evs))
    ∧ (s.messages = [] → (clockIds f i (tickTotal snap evs)).Nodup →
        ((runSession snap evs ⟨f, i⟩ s).1.messages.map Msg.id).Nodup) := by
  refine ⟨(runSession_ids snap evs f i s).1, ?_⟩
  intro h1 h2
  rw [(runSession_ids snap evs f i s).1, h1]
  simpa using h2

/-- Claim C9, witness: a session of two log events under a strictly
increasing clock produces the two turn ids 0 and 1, which are distinct. -/
theorem c9_turn_ids_witness :
    ((runSession ⟨"", ""⟩ [InEvent.log "a", InEvent.log "b"]
        ⟨(fun j => j), 0⟩ initState).1.messages.map Msg.id).Nodup :=
  (c9_turn_ids_amended ⟨"", ""⟩ [InEvent.log "a", InEvent.log "b"]
    (fun j => j) 0 initState).2 rfl (by decide)

/-- Claim C9, counterexample: ids are Date.now().toString(), so the two
turns appended by one submission handler call (user turn plus the
no-url notice), which read the same millisecond, share one id. -/
theorem c9_turn_ids_counterexample :
    ¬ (((handleInitialSubmit "make a portfolio site" ⟨(fun _ => 5), 0⟩
          initState).state.messages.map Msg.id).Nodup)
    ∧ ((handleInitialSubmit "make a portfolio site" ⟨(fun _ => 5), 0⟩
          initState).state.messages.map (fun m => (m.id, m.role)))
      = [("5", "user"), ("5", "assistant")] :=
  ⟨by decide, by decide⟩

/-- The head of a nonempty dropWhile result falsifies the predicate. -/
theorem dropWhile_head_false {p : TreeNode → Bool} :
    ∀ (l rest : List TreeNode) (x : TreeNode),
      l.dropWhile p = x :: rest → p x = false := by
  intro l
  induction l with
  | nil => intro rest x h; simp [List.dropWhile] at h
  | cons a t ih =>
      intro rest x h
      by_cases hp : p a
      · rw [List.dropWhile_cons, if_pos hp] at h
        exact ih rest x h
      · rw [List.dropWhile_cons, if_neg hp] at h
        cases h
        simpa using hp

/-- hasName distributes over append. -/
theorem hasName_append (l1 l2 : List TreeNode) (s : String) :
    hasName (l1 ++ l2) s = (hasName l1 s || hasName l2 s) := by
  simp [hasName, List.any_append]

/-- The children list of a folder occurring in a good level is good. -/
theorem goodLevel_mid_folder :
    ∀ (pre : List TreeNode) (nm : String) (cs post : List TreeNode),
      goodLevel (pre ++ TreeNode.folder nm cs :: post) = true →
      goodLevel cs = true := by
  intro pre
  induction pre with
  | nil =>
      intro nm cs post h
      simp only [List.nil_append, goodLevel, goodNode, Bool.and_eq_true] at h
      exact h.1.1
  | cons x t ih =>
      intro nm cs post h
      simp only [List.cons_append, goodLevel, Bool.and_eq_true] at h
      exact ih nm cs post h.2

/-- Pushing a fresh, internally good node at the end of a good level keeps
the level good. -/
theorem goodLevel_push :
    ∀ (lvl : List TreeNode) (n : TreeNode),
      goodLevel lvl = true → hasName lvl (nodeName n) = false →
      goodNode n = true → goodLevel (lvl ++ [n]) = true := by
  intro lvl
  induction lvl with
  | nil =>
      intro n _ _ h3
      simp [goodLevel, hasName, h3]
  | cons x t ih =>
      intro n h1 h2 h3
      simp only [goodLevel, Bool.and_eq_true] at h1
      simp only [hasName, List.any_cons, Bool.or_eq_false_iff] at h2
      simp only [List.cons_append, goodLevel, Bool.and_eq_true, List.append_eq]
      refine ⟨⟨h1.1.1, ?_⟩, ih n h1.2 (by simpa [hasName] using h2.2) h3⟩
      rw [hasName_append]
      have ht : hasName t (nodeName x) = false := by
        have := h1.1.2
        simpa using this
      have hn : hasName [n] (nodeName x) = false := by
        simp only [hasName, List.any_cons, List.any_nil, Bool.or_false]
        have hx : (nodeName x == nodeName n) = false := h2.1
        rw [beq_eq_false_iff_ne] at hx
        rw [beq_eq_false_iff_ne]
        exact fun hc => hx hc.symm
      rw [ht, hn]
      rfl

/-- Replacing the children of a folder node by another good children list
keeps the level good (the node keeps its name, so sibling distinctness is
unaffected). -/
theorem goodLevel_replace :
    ∀ (pre : List TreeNode) (nm : String) (cs cs2 post : List TreeNode),
      goodLevel (pre ++ TreeNode.folder nm cs :: post) = true →
      goodLevel cs2 = true →
      goodLevel (pre ++ TreeNode.folder nm cs2 :: post) = true := by
  intro pre
  induction pre with
  | nil =>
      intro nm cs cs2 post h h2
      simp only [List.nil_append, goodLevel, goodNode, Bool.and_eq_true,
        nodeName] at h ⊢
      exact ⟨⟨h2, h.1.2⟩, h.2⟩
  | cons x t ih =>
      intro nm cs cs2 post h h2
      simp only [List.cons_append, goodLevel, Bool.and_eq_true,
        List.append_eq] at h ⊢
      refine ⟨⟨h.1.1, ?_⟩, ih nm cs cs2 post h.2 h2⟩
      have hsame : hasName (t ++ TreeNode.folder nm cs2 :: post) (nodeName x)
          = hasName (t ++ TreeNode.folder nm cs :: post) (nodeName x) := by
        simp [hasName, List.any_append, List.any_cons, nodeName]
      rw [hsame]
      exact h.1.2

/-- The walk of one path through a level keeps every level of the tree
free of duplicated sibling names: an existing node with the inserted name
is reused, a new node is appended only when the name is absent. -/
theorem insertSegs_good :
    ∀ (segs : List String) (lvl lvl2 : List TreeNode),
      insertSegs segs lvl = some lvl2 → goodLevel lvl = true →
      goodLevel lvl2 = true := by
  intro segs
  induction segs with
  | nil =>
      intro lvl lvl2 h hg
      simp only [insertSegs, Option.some.injEq] at h
      cases h
      exact hg
  | cons seg rest ih =>
      intro lvl lvl2 h hg
      cases rest with
      | nil =>
          by_cases hn : hasName lvl seg
          · simp only [insertSegs, if_pos hn, Option.some.injEq] at h
            cases h
            exact hg
          · simp only [insertSegs, if_neg hn, Option.some.injEq] at h
            cases h
            exact goodLevel_push lvl (TreeNode.file seg) hg
              (by simpa [nodeName] using hn) rfl
      | cons seg2 rest2 =>
          simp only [insertSegs] at h
          split at h
          · rename_i hd
            rw [Option.map_eq_some'] at h
            obtain ⟨sub, hsub, hlvl⟩ := h
            cases hlvl
            have hnone : hasName lvl seg = false := by
              rw [List.dropWhile_eq_nil_iff] at hd
              simp only [hasName, List.any_eq_false]
              intro m hm
              have := hd m hm
              simpa using this
            exact goodLevel_push lvl (TreeNode.folder seg sub) hg
              (by simpa [nodeName] using hnone)
              (ih [] sub hsub rfl)
          · simp at h
          · rename_i nm cs post hd
            rw [Option.map_eq_some'] at h
            obtain ⟨cs2, hsub, hlvl⟩ := h
            cases hlvl
            have hsplit : lvl.takeWhile (fun n => !(nodeName n == seg))
                ++ TreeNode.folder nm cs :: post = lvl := by
              rw [← hd]
              exact List.takeWhile_append_dropWhile _ _
            have hg2 : goodLevel (lvl.takeWhile (fun n => !(nodeName n == seg))
                ++ TreeNode.folder nm cs :: post) = true := by
              rw [hsplit]; exact hg
            exact goodLevel_replace _ nm cs cs2 post hg2
              (ih cs cs2 hsub (goodLevel_mid_folder _ nm cs post hg2))

/-- Folding the path keys through insertSegs preserves name distinctness at
every level. -/
theorem buildTree_good :
    ∀ (paths : List String) (acc t : List TreeNode),
      goodLevel acc = true → buildTree paths acc = some t →
      goodLevel t = true := by
  intro paths
  induction paths with
  | nil =>
      intro acc t h1 h2
      simp only [buildTree, Option.some.injEq] at h2
      cases h2
      exact h1
  | cons p ps ih =>
      intro acc t h1 h2
      simp only [buildTree] at h2
      rcases hin : insertSegs (splitPath p) acc with _ | acc2
      · rw [hin] at h2; cases h2
      · rw [hin] at h2
        exact ih acc2 t (insertSegs_good (splitPath p) acc acc2 hin h1) h2

/-- Claim C8: the tree projector splits each stored path on the slash,
walks the segments making every non-final segment a folder and the final
one a file, and reuses an existing same-named node at the same level
instead of duplicating it — so every projected level has pairwise distinct
sibling names — and after file_create events on a/b/c.txt and a/b/d.txt
the projected tree is one root folder a with one child folder b holding
exactly the files c.txt and d.txt. -/
theorem c8_tree_projection :
    (∀ (paths : List String) (t : List TreeNode),
        fileTree paths = some t → goodLevel t = true)
    ∧ fileTree (((submitAndRun "https://example.com"
          [InEvent.fileCreate "a/b/c.txt" "x", InEvent.fileCreate "a/b/d.txt" "y"]
          ⟨(fun j => j), 0⟩).1.files).map Prod.fst)
      = some [TreeNode.folder "a" [TreeNode.folder "b"
          [TreeNode.file "c.txt", TreeNode.file "d.txt"]]] := by
  refine ⟨?_, rfl⟩
  intro paths t h
  exact buildTree_good paths [] t rfl h

/-- Claim C8, witness: the tree of the two scenario paths is defined and
has distinct sibling names at every level. -/
theorem c8_tree_projection_witness :
    goodLevel [TreeNode.folder "a" [TreeNode.folder "b"
      [TreeNode.file "c.txt", TreeNode.file "d.txt"]]] = true :=
  c8_tree_projection.1 ["a/b/c.txt", "a/b/d.txt"]
    [TreeNode.folder "a" [TreeNode.folder "b"
      [TreeNode.file "c.txt", TreeNode.file "d.txt"]]] rfl
